import Mathlib

/-!
Shallow embedding of the synapse-recommender service (`src/app`): the rating
synthesizer (`data_loader.py`), the ranking engine (`engine.py`), and the
request handlers (`main.py`, `schemas.py`), together with theorems settling
the specification claims about them.

Numeric modelling: the sigmoid blend of the synthesizer uses real exponentials, so
`get_implicit_weight` and `calculate_dynamic_rating` are embedded over `ℝ`.
The ranking engine performs only field arithmetic on opaque numeric inputs
(ratings map, model predictions), so it is embedded over `ℚ`, keeping every
engine definition executable for concrete evaluation.
-/

namespace Synapse

/-! ## data_loader.py -/

/-- Function `get_implicit_weight` from `app/data_loader.py`: the sigmoid confidence
weight for implicit ratings, with default steepness `k = 0.5` and
`midpoint = 10.0` (the only values used by the engine). A user with zero
completed tasks gets weight exactly 0. -/
noncomputable def get_implicit_weight (task_count : ℝ) : ℝ :=
  if task_count = 0 then 0
  else 1 / (1 + Real.exp (-(0.5) * (task_count - 10)))

/-- Function `calculate_dynamic_rating` from `app/data_loader.py` (the row closure in
`load_data_for_engine`): a missing rating is read as 0 (`pd.notna` guard);
if only one kind of rating is present that one is returned, otherwise the
sigmoid-weighted blend of the two. -/
noncomputable def calculate_dynamic_rating (task_count : ℝ)
    (explicit_rating implicit_rating : Option ℝ) : ℝ :=
  let e := explicit_rating.getD 0
  let i := implicit_rating.getD 0
  if e = 0 then i
  else if i = 0 then e
  else ((1 - get_implicit_weight task_count) * e) +
    (get_implicit_weight task_count * i)

/-- The numeric anchors of `proficiency_map` in `app/data_loader.py`:
beginner ↦ 2.0, intermediate ↦ 3.5, expert ↦ 5.0. -/
def proficiency_anchors : Set ℝ := {2, 3.5, 5}

/-! ## engine.py -/

/-- The result triple of `load_data_for_engine` in `app/data_loader.py`:
the final ratings rows, the available user ids, and the
`(user_id, skill_id) ↦ rating` map (as an association list). -/
structure LoadResult where
  ratings : List (ℤ × ℤ × ℚ)
  availableUserIds : List ℤ
  actualRatingsMap : List ((ℤ × ℤ) × ℚ)
deriving DecidableEq

/-- Live state of `RecommendationEngine` (`app/engine.py`): the fields set by
`__init__`. `model = none` embeds `self.model = None`; a trained SVD model is
embedded as an opaque prediction function `(user_id, skill_id) ↦ estimate`,
the only way the engine consumes it (`self.model.predict(...).est`). -/
structure EngineState where
  ratings : List (ℤ × ℤ × ℚ)
  availableUserIds : List ℤ
  actualRatingsMap : List ((ℤ × ℤ) × ℚ)
  model : Option (ℤ → ℤ → ℚ)

/-- The `details` sub-score dict attached to each recommendation entry in
`get_recommendations` (`app/engine.py`). -/
structure SubScores where
  skill_coverage : ℚ
  avg_proficiency : ℚ
  affinity_score : ℚ
deriving DecidableEq, Repr

/-- One entry of the list built by `get_recommendations` (`app/engine.py`):
a dict with keys user_id, score and the details sub-dict. -/
structure EngineRec where
  user_id : ℤ
  score : ℚ
  details : SubScores
deriving DecidableEq, Repr

/-- Constant `RecommendationEngine.WEIGHT_COVERAGE` (`app/engine.py`). -/
def WEIGHT_COVERAGE : ℚ := 0.6

/-- Constant `RecommendationEngine.WEIGHT_PROFICIENCY` (`app/engine.py`). -/
def WEIGHT_PROFICIENCY : ℚ := 0.3

/-- Constant `RecommendationEngine.WEIGHT_AFFINITY` (`app/engine.py`). -/
def WEIGHT_AFFINITY : ℚ := 0.1

/-- Lookup `self.actual_ratings_map.get((user_id, skill_id), 0)` (`app/engine.py`). -/
def lookupRating (m : List ((ℤ × ℤ) × ℚ)) (user_id skill_id : ℤ) : ℚ :=
  match m.find? (fun e => e.1 = (user_id, skill_id)) with
  | some e => e.2
  | none => 0

/-- Lookup `self.user_skills_map.get(user_id, set())` (`app/engine.py`): the skill
ids holding a rating for `user_id`, derived from the keys of
`actual_ratings_map` exactly as `__init__` builds `user_skills_map`. -/
def userSkillsOf (m : List ((ℤ × ℤ) × ℚ)) (user_id : ℤ) : List ℤ :=
  ((m.map Prod.fst).filter (fun p => p.1 = user_id)).map Prod.snd

/-- Intersection `required_skills.intersection(self.user_skills_map.get(user_id, set()))`
(`app/engine.py`, Stage 2). -/
def matchedSkills (m : List ((ℤ × ℤ) × ℚ)) (required : List ℤ) (u : ℤ) :
    List ℤ :=
  required.filter (fun s => decide (s ∈ userSkillsOf m u))

/-- Feature 1 of `get_recommendations`:
`len(matched_skills) / len(required_skills)`. -/
def skillCoverage (m : List ((ℤ × ℤ) × ℚ)) (required : List ℤ) (u : ℤ) : ℚ :=
  ((matchedSkills m required u).length : ℚ) / (required.length : ℚ)

/-- Feature 2 of `get_recommendations`: the mean of the actual-rating-map
lookups over matched skills, with the empty-list-to-0 guard of the code. -/
def avgProficiency (m : List ((ℤ × ℤ) × ℚ)) (required : List ℤ) (u : ℤ) : ℚ :=
  let ps := (matchedSkills m required u).map (fun s => lookupRating m u s)
  if ps = [] then 0 else ps.sum / (ps.length : ℚ)

/-- Feature 3 of `get_recommendations`: the mean of the model predictions
over all required skills, with the empty-list-to-0 guard of the code. -/
def avgAffinity (model : ℤ → ℤ → ℚ) (required : List ℤ) (u : ℤ) : ℚ :=
  let ps := required.map (fun s => model u s)
  if ps = [] then 0 else ps.sum / (ps.length : ℚ)

/-- The final weighted score of `get_recommendations` (`app/engine.py`):
proficiency and affinity are normalized to the 0–1 scale by dividing by 5. -/
def final_score (cov prof aff : ℚ) : ℚ :=
  (WEIGHT_COVERAGE * cov) + (WEIGHT_PROFICIENCY * (prof / 5)) +
    (WEIGHT_AFFINITY * (aff / 5))

/-- The body of the Stage 2/3 loop of `get_recommendations` for one candidate:
`none` embeds the `continue` taken when `matched_skills` is empty. -/
def mkEntry (m : List ((ℤ × ℤ) × ℚ)) (model : ℤ → ℤ → ℚ) (required : List ℤ)
    (u : ℤ) : Option EngineRec :=
  if matchedSkills m required u = [] then none
  else some
    { user_id := u
      score := final_score (skillCoverage m required u)
        (avgProficiency m required u) (avgAffinity model required u)
      details :=
        { skill_coverage := skillCoverage m required u
          avg_proficiency := avgProficiency m required u
          affinity_score := avgAffinity model required u } }

/-- Stage 1 of `get_recommendations`: available users whose skill set is not
disjoint from the required set (the candidate pool; the set comprehension is
embedded as deduplication of the available-user list). -/
def candidatePool (st : EngineState) (required : List ℤ) : List ℤ :=
  st.availableUserIds.dedup.filter
    (fun u => required.any (fun s => decide (s ∈ userSkillsOf st.actualRatingsMap u)))

/-- The unsorted recommendation list built by the Stage 2/3 loop. -/
def scoredCandidates (st : EngineState) (model : ℤ → ℤ → ℚ)
    (required : List ℤ) : List EngineRec :=
  (candidatePool st required).filterMap (mkEntry st.actualRatingsMap model required)

/-- The descending-score order used by the sort call of `get_recommendations`
(descending on the score key). -/
def scoreDesc (a b : EngineRec) : Prop :=
  b.score ≤ a.score

instance : DecidableRel scoreDesc :=
  fun a b => inferInstanceAs (Decidable (b.score ≤ a.score))

instance : IsTotal EngineRec scoreDesc :=
  ⟨fun a b => le_total b.score a.score⟩

instance : IsTrans EngineRec scoreDesc :=
  ⟨fun _ _ _ h1 h2 => le_trans h2 h1⟩

/-- The sort call of `get_recommendations` (`app/engine.py`): the complete
candidate list in descending score order. The sort of Python is stable, and
the output of a stable sort is unique, so it is embedded as a stable
insertion sort by the descending-score order. -/
def rankedCandidates (st : EngineState) (model : ℤ → ℤ → ℚ)
    (required : List ℤ) : List EngineRec :=
  (scoredCandidates st model required).insertionSort scoreDesc

/-- Method `RecommendationEngine.get_recommendations` (`app/engine.py`): returns `[]`
when no model is present or no skills are required; otherwise scores the
candidate pool, sorts descending by score, and truncates to `limit`
(`recommendations[:limit]`; the `if not recommendations: return []` early
return is extensionally the truncation of the empty list). -/
def get_recommendations (st : EngineState) (skill_ids : List ℤ)
    (limit : ℕ) : List EngineRec :=
  match st.model with
  | none => []
  | some model =>
    let required := skill_ids.dedup
    if required = [] then []
    else (rankedCandidates st model required).take limit

/-- Method `RecommendationEngine.__init__` (`app/engine.py`): stores the data-loader
three results; when the ratings are empty the model is left as `None`,
otherwise an SVD model is trained on the ratings (embedded as applying the
opaque training function `train`). -/
def engineInit (train : List (ℤ × ℤ × ℚ) → ℤ → ℤ → ℚ) (ld : LoadResult) :
    EngineState :=
  if ld.ratings = [] then
    { ratings := ld.ratings
      availableUserIds := ld.availableUserIds
      actualRatingsMap := ld.actualRatingsMap
      model := none }
  else
    { ratings := ld.ratings
      availableUserIds := ld.availableUserIds
      actualRatingsMap := ld.actualRatingsMap
      model := some (train ld.ratings) }

/-! ## schemas.py and main.py -/

/-- The `Recommendation` response schema (`app/schemas.py`): exactly two
fields, `user_id` and `score`. -/
structure Recommendation where
  user_id : ℤ
  score : ℚ
deriving DecidableEq, Repr

/-- The projection of an engine entry onto the `Recommendation` response
schema: FastAPI serializes each entry through `response_model`, keeping only
the declared schema fields (`user_id`, `score`) and discarding the rest. -/
def toResponse (r : EngineRec) : Recommendation :=
  { user_id := r.user_id, score := r.score }

/-- The `model_ready` readiness test of `main.py` (`bool(engine and
engine.model)`): true only when an engine exists and holds a trained model. -/
def is_ready (st : Option EngineState) : Bool :=
  match st with
  | none => false
  | some e => e.model.isSome

/-- The `/recommend` handler `recommend_engineers` (`app/main.py`): a 503
error when no engine or no model is present, otherwise the engine
recommendations serialized through the `Recommendation` schema. -/
def recommend_engineers (st : Option EngineState) (skill_ids : List ℤ)
    (limit : ℕ) : Except String (List Recommendation) :=
  match st with
  | none =>
    .error "Recommendation engine is not available or failed to initialize."
  | some e =>
    match e.model with
    | none =>
      .error "Recommendation engine is not available or failed to initialize."
    | some _ => .ok ((get_recommendations e skill_ids limit).map toResponse)

/-- Modelled from the spec: `RecommendationEngine.refresh_model` is not under
`src/` — only its caller `trigger_model_refresh` in `app/main.py` invokes it.
Per §4.4, it re-invokes the rating synthesizer against current observation
data (here: the fresh `LoadResult`), re-trains a new Affinity Model instance
from scratch, and produces the replacement live state; if retraining fails
(e.g. empty data) it raises instead, leaving the previous state to be kept by
the caller. -/
def refresh_model (train : List (ℤ × ℤ × ℚ) → ℤ → ℤ → ℚ)
    (ld : LoadResult) : Except String EngineState :=
  if ld.ratings = [] then
    .error "Ratings data is empty. Engine cannot be refreshed."
  else
    .ok { ratings := ld.ratings
          availableUserIds := ld.availableUserIds
          actualRatingsMap := ld.actualRatingsMap
          model := some (train ld.ratings) }

/-- The `/refresh-model` handler `trigger_model_refresh` (`app/main.py`):
503 when no engine exists; otherwise `engine.refresh_model()` inside
`try/except` — on success the engine state is replaced and a 202 accepted
status returned, on failure the old state is untouched and a 500 error returned.
The pair carries the resulting engine state and the HTTP outcome. -/
def trigger_model_refresh (train : List (ℤ × ℤ × ℚ) → ℤ → ℤ → ℚ)
    (ld : LoadResult) (st : Option EngineState) :
    Option EngineState × Except String String :=
  match st with
  | none => (none, .error "Recommendation engine is not available.")
  | some old =>
    match refresh_model train ld with
    | .ok new => (some new, .ok "Model refresh initiated.")
    | .error _ =>
      (some old, .error "An error occurred while refreshing the model.")

/-! ## Helper lemmas about the implicit weight -/

theorem get_implicit_weight_nonneg (t : ℝ) : 0 ≤ get_implicit_weight t := by
  unfold get_implicit_weight
  split
  · exact le_refl 0
  · positivity

theorem get_implicit_weight_le_one (t : ℝ) : get_implicit_weight t ≤ 1 := by
  unfold get_implicit_weight
  split
  · norm_num
  · rw [div_le_one (by positivity)]
    have h := Real.exp_pos (-(0.5) * (t - 10))
    linarith

/-! ## Claim theorems about the rating synthesizer -/

/-- Claim C4: the implicit-weight function satisfies `w_implicit(0) = 0`
exactly and `w_implicit(10) = 0.5` exactly, and for every `t > 0` it follows
the logistic curve `1 / (1 + e^(-k·(t - m)))` with steepness `k = 0.5` and
midpoint `m = 10`. -/
theorem implicit_weight_curve :
    get_implicit_weight 0 = 0 ∧ get_implicit_weight 10 = 0.5 ∧
      ∀ t : ℝ, 0 < t →
        get_implicit_weight t = 1 / (1 + Real.exp (-(0.5) * (t - 10))) := by
  refine ⟨by simp [get_implicit_weight], ?_, ?_⟩
  · rw [get_implicit_weight, if_neg (by norm_num)]
    rw [show (-(0.5 : ℝ)) * (10 - 10) = 0 by norm_num, Real.exp_zero]
    norm_num
  · intro t ht
    rw [get_implicit_weight, if_neg (ne_of_gt ht)]

/-- Witness for C4: the curve equation instantiated at `t = 10 > 0`. -/
theorem implicit_weight_curve_witness :
    (0 : ℝ) < 10 ∧
      get_implicit_weight 10 = 1 / (1 + Real.exp (-(0.5) * (10 - 10))) :=
  ⟨by norm_num, implicit_weight_curve.2.2 10 (by norm_num)⟩

/-- Claim C5: the implicit-weight function is monotonically non-decreasing
over all non-negative experience counts, including across the special-cased
jump from `t = 0` (weight exactly 0) to `t > 0` (sigmoid value). -/
theorem implicit_weight_mono (t1 t2 : ℝ) (h0 : 0 ≤ t1) (h12 : t1 ≤ t2) :
    get_implicit_weight t1 ≤ get_implicit_weight t2 := by
  by_cases h1 : t1 = 0
  · have : get_implicit_weight t1 = 0 := by rw [h1]; simp [get_implicit_weight]
    rw [this]
    exact get_implicit_weight_nonneg t2
  · have ht1 : 0 < t1 := lt_of_le_of_ne h0 (Ne.symm h1)
    have ht2 : 0 < t2 := lt_of_lt_of_le ht1 h12
    rw [get_implicit_weight, if_neg (ne_of_gt ht1),
      get_implicit_weight, if_neg (ne_of_gt ht2)]
    have hexp : Real.exp (-(0.5) * (t2 - 10)) ≤ Real.exp (-(0.5) * (t1 - 10)) :=
      Real.exp_le_exp.mpr (by linarith)
    exact one_div_le_one_div_of_le (by positivity) (by linarith)

/-- Witness for C5: monotonicity instantiated across the jump, at
`t1 = 0 ≤ t2 = 10`. -/
theorem implicit_weight_mono_witness :
    ((0 : ℝ) ≤ 0 ∧ (0 : ℝ) ≤ 10) ∧
      get_implicit_weight 0 ≤ get_implicit_weight 10 :=
  ⟨⟨le_refl 0, by norm_num⟩, implicit_weight_mono 0 10 (le_refl 0) (by norm_num)⟩

/-- Claim C3: for a synthesized (person, skill) pair: with only an explicit
observation the rating is the explicit anchor exactly; with only an implicit
observation the rating is 5.0 exactly; with both, the rating is
`(1 - w_implicit(t))·explicit + w_implicit(t)·implicit` at the experience count of that person, namely `t` (the implicit anchor being 5.0). -/
theorem dynamic_rating_cases (t e : ℝ) (he : e ∈ proficiency_anchors) :
    calculate_dynamic_rating t (some e) none = e ∧
    calculate_dynamic_rating t none (some 5) = 5 ∧
    calculate_dynamic_rating t (some e) (some 5) =
      (1 - get_implicit_weight t) * e + get_implicit_weight t * 5 := by
  have he0 : e ≠ 0 := by
    simp only [proficiency_anchors, Set.mem_insert_iff, Set.mem_singleton_iff] at he
    rcases he with h | h | h <;> rw [h] <;> norm_num
  refine ⟨?_, ?_, ?_⟩
  · simp [calculate_dynamic_rating, he0]
  · simp [calculate_dynamic_rating]
  · simp [calculate_dynamic_rating, he0]

/-- Witness for C3: the three cases instantiated at experience count 10 and
the beginner anchor 2.0. -/
theorem dynamic_rating_cases_witness :
    (2 : ℝ) ∈ proficiency_anchors ∧
      (calculate_dynamic_rating 10 (some 2) none = 2 ∧
       calculate_dynamic_rating 10 none (some 5) = 5 ∧
       calculate_dynamic_rating 10 (some 2) (some 5) =
         (1 - get_implicit_weight 10) * 2 + get_implicit_weight 10 * 5) :=
  ⟨by simp [proficiency_anchors], dynamic_rating_cases 10 2 (by simp [proficiency_anchors])⟩

/-- Claim C10: every rating emitted by synthesis lies in `[2, 5]`: explicit
anchors come from `{2.0, 3.5, 5.0}`, implicit ratings are exactly 5.0, and a
blended pair is a convex combination with implicit weight in `[0, 1]`. -/
theorem rating_in_range (t : ℝ) (eo io : Option ℝ)
    (he : eo = none ∨ eo = some 2 ∨ eo = some 3.5 ∨ eo = some 5)
    (hi : io = none ∨ io = some 5)
    (hne : ¬(eo = none ∧ io = none)) :
    2 ≤ calculate_dynamic_rating t eo io ∧
      calculate_dynamic_rating t eo io ≤ 5 := by
  have hw0 : 0 ≤ get_implicit_weight t := get_implicit_weight_nonneg t
  have hw1 : get_implicit_weight t ≤ 1 := get_implicit_weight_le_one t
  rcases he with rfl | rfl | rfl | rfl
  · rcases hi with rfl | rfl
    · exact absurd ⟨rfl, rfl⟩ hne
    · norm_num [calculate_dynamic_rating]
  · rcases hi with rfl | rfl
    · norm_num [calculate_dynamic_rating]
    · have h2 : (2 : ℝ) ≠ 0 := by norm_num
      simp only [calculate_dynamic_rating, Option.getD_some, if_neg h2,
        if_neg (by norm_num : (5 : ℝ) ≠ 0)]
      constructor <;> nlinarith
  · rcases hi with rfl | rfl
    · norm_num [calculate_dynamic_rating]
    · have h35 : (3.5 : ℝ) ≠ 0 := by norm_num
      simp only [calculate_dynamic_rating, Option.getD_some, if_neg h35,
        if_neg (by norm_num : (5 : ℝ) ≠ 0)]
      constructor <;> nlinarith
  · rcases hi with rfl | rfl
    · norm_num [calculate_dynamic_rating]
    · have h5 : (5 : ℝ) ≠ 0 := by norm_num
      simp only [calculate_dynamic_rating, Option.getD_some, if_neg h5,
        if_neg (by norm_num : (5 : ℝ) ≠ 0)]
      constructor <;> nlinarith

/-- Witness for C10: the bound instantiated at a blended beginner/implicit
pair with experience count 0. -/
theorem rating_in_range_witness :
    ((some (2 : ℝ) = none ∨ some (2 : ℝ) = some 2 ∨ some (2 : ℝ) = some 3.5 ∨
        some (2 : ℝ) = some 5) ∧
      (some (5 : ℝ) = none ∨ some (5 : ℝ) = some 5) ∧
      ¬(some (2 : ℝ) = none ∧ some (5 : ℝ) = none)) ∧
      2 ≤ calculate_dynamic_rating 0 (some 2) (some 5) ∧
        calculate_dynamic_rating 0 (some 2) (some 5) ≤ 5 :=
  ⟨⟨Or.inr (Or.inl rfl), Or.inr rfl, by simp⟩,
    rating_in_range 0 (some 2) (some 5) (Or.inr (Or.inl rfl)) (Or.inr rfl) (by simp)⟩

/-! ## Helper lemmas about the ranking engine -/

theorem mkEntry_eq_some {m : List ((ℤ × ℤ) × ℚ)} {model : ℤ → ℤ → ℚ}
    {required : List ℤ} {u : ℤ} {r : EngineRec}
    (h : mkEntry m model required u = some r) :
    r.user_id = u ∧
    r.details = ⟨skillCoverage m required u, avgProficiency m required u,
      avgAffinity model required u⟩ ∧
    r.score = final_score (skillCoverage m required u)
      (avgProficiency m required u) (avgAffinity model required u) ∧
    matchedSkills m required u ≠ [] := by
  unfold mkEntry at h
  split at h
  · exact absurd h (by simp)
  · next hne =>
    injection h with h
    subst h
    exact ⟨rfl, rfl, rfl, hne⟩

theorem mem_get_recommendations {st : EngineState} {model : ℤ → ℤ → ℚ}
    {sk : List ℤ} {lim : ℕ} {r : EngineRec}
    (hm : st.model = some model) (hr : r ∈ get_recommendations st sk lim) :
    ∃ u, u ∈ candidatePool st sk.dedup ∧
      mkEntry st.actualRatingsMap model sk.dedup u = some r := by
  unfold get_recommendations at hr
  rw [hm] at hr
  dsimp only at hr
  by_cases hreq : sk.dedup = []
  · rw [if_pos hreq] at hr
    exact absurd hr (List.not_mem_nil r)
  · rw [if_neg hreq] at hr
    have hr2 : r ∈ rankedCandidates st model sk.dedup := List.mem_of_mem_take hr
    have hr3 : r ∈ scoredCandidates st model sk.dedup :=
      (List.mem_insertionSort scoreDesc).mp hr2
    exact List.mem_filterMap.mp hr3

/-! ## Claim theorems about the ranking engine -/

/-- Claim C6: the combined score of every scored candidate equals
`0.6·coverage + 0.3·(proficiency/5) + 0.1·(affinity/5)`; consequently
candidate A with coverage 1.0, proficiency 5.0, affinity 5.0 scores 1.0,
strictly above the 0.7 scored by candidate B with coverage 0.5 and the same
proficiency and affinity. -/
theorem combined_score_formula (st : EngineState) (sk : List ℤ) (lim : ℕ)
    (r : EngineRec) (hr : r ∈ get_recommendations st sk lim) :
    r.score = 0.6 * r.details.skill_coverage +
        0.3 * (r.details.avg_proficiency / 5) +
        0.1 * (r.details.affinity_score / 5) ∧
    final_score 1 5 5 = 1 ∧ final_score 0.5 5 5 = 0.7 ∧
      final_score 0.5 5 5 < final_score 1 5 5 := by
  have hw : WEIGHT_COVERAGE = 0.6 ∧ WEIGHT_PROFICIENCY = 0.3 ∧
      WEIGHT_AFFINITY = 0.1 := ⟨rfl, rfl, rfl⟩
  refine ⟨?_,
    by norm_num [final_score, WEIGHT_COVERAGE, WEIGHT_PROFICIENCY, WEIGHT_AFFINITY],
    by norm_num [final_score, WEIGHT_COVERAGE, WEIGHT_PROFICIENCY, WEIGHT_AFFINITY],
    by norm_num [final_score, WEIGHT_COVERAGE, WEIGHT_PROFICIENCY, WEIGHT_AFFINITY]⟩
  cases hmo : st.model with
  | none =>
    unfold get_recommendations at hr
    rw [hmo] at hr
    exact absurd hr (List.not_mem_nil r)
  | some model =>
    obtain ⟨u, -, hmk⟩ := mem_get_recommendations hmo hr
    obtain ⟨-, hdet, hscore, -⟩ := mkEntry_eq_some hmk
    rw [hscore, hdet]
    rfl

/-- Claim C7: a candidate whose proficiency-index skill set has empty
intersection with the required skill set never appears in the result, and is
never scored at all — `mkEntry` produces no entry for them under any affinity
model `m2`, regardless of its predictions. -/
theorem zero_overlap_excluded (st : EngineState) (m2 : ℤ → ℤ → ℚ)
    (sk : List ℤ) (lim : ℕ) (u : ℤ) (r : EngineRec)
    (hdisj : ∀ s ∈ sk, s ∉ userSkillsOf st.actualRatingsMap u)
    (hr : r ∈ get_recommendations st sk lim) :
    r.user_id ≠ u ∧ mkEntry st.actualRatingsMap m2 sk.dedup u = none := by
  have hmatched : matchedSkills st.actualRatingsMap sk.dedup u = [] := by
    apply List.filter_eq_nil_iff.mpr
    intro s hs
    simp only [decide_eq_true_eq]
    exact hdisj s (List.mem_dedup.mp hs)
  have hnone : mkEntry st.actualRatingsMap m2 sk.dedup u = none := by
    unfold mkEntry
    rw [if_pos hmatched]
  refine ⟨?_, hnone⟩
  cases hmo : st.model with
  | none =>
    unfold get_recommendations at hr
    rw [hmo] at hr
    exact absurd hr (List.not_mem_nil r)
  | some model =>
    obtain ⟨u', -, hmk⟩ := mem_get_recommendations hmo hr
    obtain ⟨hid, -, -, hne⟩ := mkEntry_eq_some hmk
    intro hcontra
    rw [hid] at hcontra
    subst hcontra
    exact hne hmatched

/-- Claim C8: the returned list contains at most `limit` entries and is
exactly the top-of-list prefix of the complete candidate list sorted in
descending order of combined score. -/
theorem result_is_sorted_prefix (st : EngineState) (model : ℤ → ℤ → ℚ)
    (sk : List ℤ) (lim : ℕ) (hm : st.model = some model) :
    get_recommendations st sk lim =
      (rankedCandidates st model sk.dedup).take lim ∧
    List.Sorted scoreDesc (rankedCandidates st model sk.dedup) ∧
    (get_recommendations st sk lim).length ≤ lim := by
  have hsorted : List.Sorted scoreDesc (rankedCandidates st model sk.dedup) :=
    List.sorted_insertionSort scoreDesc (scoredCandidates st model sk.dedup)
  have heq : get_recommendations st sk lim =
      (rankedCandidates st model sk.dedup).take lim := by
    unfold get_recommendations
    rw [hm]
    dsimp only
    by_cases hreq : sk.dedup = []
    · rw [if_pos hreq, hreq]
      simp [rankedCandidates, scoredCandidates, candidatePool]
    · rw [if_neg hreq]
  refine ⟨heq, hsorted, ?_⟩
  rw [heq]
  exact List.length_take_le lim _

/-- Claim C2 (amended): each entry built by the engine method
`get_recommendations` retains its three raw sub-scores — `details` carries
exactly the computed coverage, proficiency and affinity features —
while the external `Recommendation` schema keeps only `user_id` and `score`. -/
theorem subscores_retained_internally (st : EngineState) (model : ℤ → ℤ → ℚ)
    (sk : List ℤ) (lim : ℕ) (r : EngineRec)
    (hm : st.model = some model) (hr : r ∈ get_recommendations st sk lim) :
    r.details = ⟨skillCoverage st.actualRatingsMap sk.dedup r.user_id,
      avgProficiency st.actualRatingsMap sk.dedup r.user_id,
      avgAffinity model sk.dedup r.user_id⟩ ∧
    toResponse r = ⟨r.user_id, r.score⟩ := by
  refine ⟨?_, rfl⟩
  obtain ⟨u, -, hmk⟩ := mem_get_recommendations hm hr
  obtain ⟨hid, hdet, -, -⟩ := mkEntry_eq_some hmk
  rw [hid, hdet]

/-! ## Concrete engine states for witnesses and counterexamples -/

/-- A concrete affinity model predicting 5 everywhere. -/
def model0 : ℤ → ℤ → ℚ := fun _ _ => 5

/-- A concrete engine state: user 1 is available and rated 5 on skill 1;
user 99 is available but has no rated skills. -/
def st0 : EngineState :=
  { ratings := [(1, 1, 5)]
    availableUserIds := [1, 99]
    actualRatingsMap := [((1, 1), 5)]
    model := some model0 }

/-- The single entry `get_recommendations st0 [1] 3` produces. -/
def rec0 : EngineRec :=
  { user_id := 1, score := 1
    details := { skill_coverage := 1, avg_proficiency := 5, affinity_score := 5 } }

/-- A concrete engine state whose lone candidate covers one of two requested
skills at rating 5 with affinity 5 everywhere: coverage 1/2, proficiency 5,
affinity 5, score 0.7. -/
def stA : EngineState :=
  { ratings := [(7, 1, 5)]
    availableUserIds := [7]
    actualRatingsMap := [((7, 1), 5)]
    model := some (fun _ _ => 5) }

/-- A concrete engine state whose lone candidate covers both requested skills
at rating 1 with affinity 2 everywhere: coverage 1, proficiency 1, affinity 2,
score 0.7 — the same external response as `stA` with different sub-scores. -/
def stB : EngineState :=
  { ratings := [(7, 1, 1)]
    availableUserIds := [7]
    actualRatingsMap := [((7, 1), 1), ((7, 2), 1)]
    model := some (fun _ _ => 2) }

/-- Counterexample for C2 as stated: two engine states whose recommendation
entries have different raw sub-scores produce identical external
`/recommend` responses, so an entry of the external RecommendationResult
does not retain (nor even determine) its three raw sub-scores — the
`Recommendation` schema drops the `details` sub-scores. -/
theorem external_response_drops_subscores :
    recommend_engineers (some stA) [1, 2] 10 =
      recommend_engineers (some stB) [1, 2] 10 ∧
    recommend_engineers (some stA) [1, 2] 10 =
      .ok [{ user_id := 7, score := 7/10 }] ∧
    (get_recommendations stA [1, 2] 10).map EngineRec.details ≠
      (get_recommendations stB [1, 2] 10).map EngineRec.details := by
  refine ⟨?_, ?_, ?_⟩
  · with_unfolding_all rfl
  · with_unfolding_all rfl
  · with_unfolding_all decide

/-- Witness for C6: the score formula instantiated on the single `st0` entry. -/
theorem combined_score_formula_witness :
    rec0 ∈ get_recommendations st0 [1] 3 ∧
      (rec0.score = 0.6 * rec0.details.skill_coverage +
          0.3 * (rec0.details.avg_proficiency / 5) +
          0.1 * (rec0.details.affinity_score / 5) ∧
        final_score 1 5 5 = 1 ∧ final_score 0.5 5 5 = 0.7 ∧
        final_score 0.5 5 5 < final_score 1 5 5) :=
  ⟨by with_unfolding_all decide,
    combined_score_formula st0 [1] 3 rec0 (by with_unfolding_all decide)⟩

/-- Witness for C7: user 99 holds no rated skill, so the entry returned for
the request `[1]` is not theirs and no entry is built for them. -/
theorem zero_overlap_excluded_witness :
    ((∀ s ∈ ([1] : List ℤ), s ∉ userSkillsOf st0.actualRatingsMap 99) ∧
      rec0 ∈ get_recommendations st0 [1] 3) ∧
    rec0.user_id ≠ 99 ∧
      mkEntry st0.actualRatingsMap model0 ([1] : List ℤ).dedup 99 = none :=
  ⟨⟨by decide, by with_unfolding_all decide⟩,
    zero_overlap_excluded st0 model0 [1] 3 99 rec0 (by decide)
      (by with_unfolding_all decide)⟩

/-- Witness for C8: the truncated-sorted-prefix property instantiated on
`st0`. -/
theorem result_is_sorted_prefix_witness :
    st0.model = some model0 ∧
      (get_recommendations st0 [1] 3 =
          (rankedCandidates st0 model0 ([1] : List ℤ).dedup).take 3 ∧
        List.Sorted scoreDesc (rankedCandidates st0 model0 ([1] : List ℤ).dedup) ∧
        (get_recommendations st0 [1] 3).length ≤ 3) :=
  ⟨rfl, result_is_sorted_prefix st0 model0 [1] 3 rfl⟩

/-- Witness for C2 (amended): the retained sub-scores instantiated on the
single `st0` entry. -/
theorem subscores_retained_internally_witness :
    (st0.model = some model0 ∧ rec0 ∈ get_recommendations st0 [1] 3) ∧
      (rec0.details = ⟨skillCoverage st0.actualRatingsMap ([1] : List ℤ).dedup rec0.user_id,
          avgProficiency st0.actualRatingsMap ([1] : List ℤ).dedup rec0.user_id,
          avgAffinity model0 ([1] : List ℤ).dedup rec0.user_id⟩ ∧
        toResponse rec0 = ⟨rec0.user_id, rec0.score⟩) :=
  ⟨⟨rfl, by with_unfolding_all decide⟩,
    subscores_retained_internally st0 model0 [1] 3 rec0 rfl
      (by with_unfolding_all decide)⟩

/-! ## Claim theorems about the lifecycle handlers -/

/-- Claim C9: when synthesis yields zero ratings, initialization leaves no
trained model, readiness reports false, and a recommend call fails fast with
the descriptive 503 detail of the handler instead of operating on an empty
model. -/
theorem empty_synthesis_fails_fast (train : List (ℤ × ℤ × ℚ) → ℤ → ℤ → ℚ)
    (av : List ℤ) (m : List ((ℤ × ℤ) × ℚ)) (sk : List ℤ) (lim : ℕ) :
    (engineInit train ⟨[], av, m⟩).model = none ∧
    is_ready (some (engineInit train ⟨[], av, m⟩)) = false ∧
    recommend_engineers (some (engineInit train ⟨[], av, m⟩)) sk lim =
      .error "Recommendation engine is not available or failed to initialize." := by
  refine ⟨?_, ?_, ?_⟩ <;> simp [engineInit, is_ready, recommend_engineers]

/-- Claim C1: refreshing re-runs synthesis against the current observation
data `ld` and retrains from scratch; on success every component of the live
state (ratings, actual-rating map — and with it the derived proficiency
index — available users, model) is replaced by the freshly built one, while
on failure (empty data) the previous live state is retained unchanged and the
failure is reported to the caller as the 500 error of the handler. -/
theorem refresh_swaps_or_retains (train : List (ℤ × ℤ × ℚ) → ℤ → ℤ → ℚ)
    (ld : LoadResult) (old : EngineState) :
    trigger_model_refresh train ld (some old) =
      if ld.ratings = [] then
        (some old, .error "An error occurred while refreshing the model.")
      else
        (some { ratings := ld.ratings
                availableUserIds := ld.availableUserIds
                actualRatingsMap := ld.actualRatingsMap
                model := some (train ld.ratings) },
          .ok "Model refresh initiated.") := by
  by_cases h : ld.ratings = [] <;>
    simp [trigger_model_refresh, refresh_model, h]

end Synapse
